import Mathlib

/-!
Shallow embedding of `change-ddio.c` (ddio-bench): a tool that locates the
PCIe root-port bridge covering a NIC's bus and toggles two control bits
(DDIO enable, bit 7; Non-Snoop write enable, bit 3) in the bridge's
`perfctrlsts_0` register at offset 0x180.

Machine integers are modelled as `Nat` (uint8_t / uint32_t values), with
explicit masking by `0xFFFFFFFF` where the C code's 32-bit overflow or
complement semantics matter.
-/

namespace DdioBench

/-- A PCI device record, as the fields of `struct pci_dev` that
`change-ddio.c` actually reads: `dev->bus` (its own bus number), the
`PCI_SECONDARY_BUS` and `PCI_SUBORDINATE_BUS` config-space bytes, and the
simulated content of its 32-bit `perfctrlsts_0` register (offset 0x180). -/
structure PciDev where
  bus : Nat
  secondary : Nat
  subordinate : Nat
  reg : Nat
deriving DecidableEq, Repr

/-- The candidate test of `find_ddio_device` (change-ddio.c lines 67-69):
`subordinate == nic_bus && secondary <= nic_bus && subordinate >= nic_bus`.
The last conjunct is kept even though the first makes it redundant. -/
def isCandidate (d : PciDev) (b : Nat) : Prop :=
  d.subordinate = b ∧ d.secondary ≤ b ∧ d.subordinate ≥ b

instance (d : PciDev) (b : Nat) : Decidable (isCandidate d b) := by
  unfold isCandidate; exact inferInstance

/-- The loop of `find_ddio_device` (lines 49-77), with the two mutable
locals `lowest_bus` and `best_match` passed as explicit state; returns
their final values. -/
def find_loop (b : Nat) : List PciDev → Nat → Option PciDev → Nat × Option PciDev
  | [], low, best => (low, best)
  | dev :: rest, low, best =>
    if isCandidate dev b then
      if dev.bus < low then
        find_loop b rest dev.bus (some dev)
      else
        find_loop b rest low best
    else
      find_loop b rest low best

/-- `find_ddio_device` (lines 42-83): scan the enumeration with
`lowest_bus` initialized to `0xff` and `best_match` to NULL; return
`best_match` (NULL modelled as `none`). -/
def find_ddio_device (devs : List PciDev) (b : Nat) : Option PciDev :=
  (find_loop b devs 0xff none).2

/-- The final `lowest_bus` never exceeds its initial value. -/
theorem find_loop_low_le (b : Nat) :
    ∀ (devs : List PciDev) (low : Nat) (best : Option PciDev),
      (find_loop b devs low best).1 ≤ low := by
  intro devs
  induction devs with
  | nil => intro low best; simp [find_loop]
  | cons dev rest ih =>
    intro low best
    by_cases hc : isCandidate dev b
    · by_cases hlt : dev.bus < low
      · simp only [find_loop, if_pos hc, if_pos hlt]
        exact le_trans (ih dev.bus (some dev)) (le_of_lt hlt)
      · simp only [find_loop, if_pos hc, if_neg hlt]
        exact ih low best
    · simp only [find_loop, if_neg hc]
      exact ih low best

/-- Once `best_match` is non-NULL it stays non-NULL. -/
theorem find_loop_isSome (b : Nat) :
    ∀ (devs : List PciDev) (low : Nat) (r : PciDev),
      ((find_loop b devs low (some r)).2).isSome := by
  intro devs
  induction devs with
  | nil => intro low r; simp [find_loop]
  | cons dev rest ih =>
    intro low r
    by_cases hc : isCandidate dev b
    · by_cases hlt : dev.bus < low
      · simp only [find_loop, if_pos hc, if_pos hlt]
        exact ih dev.bus dev
      · simp only [find_loop, if_pos hc, if_neg hlt]
        exact ih low r
    · simp only [find_loop, if_neg hc]
      exact ih low r

/-- Loop invariant: if `best_match` is a candidate whose bus equals
`lowest_bus` and is below 255, the final `best_match` (when non-NULL) is a
candidate whose bus equals the final `lowest_bus` and is below 255. -/
theorem find_loop_sound (b : Nat) :
    ∀ (devs : List PciDev) (low : Nat) (best : Option PciDev),
      low ≤ 255 →
      (∀ r, best = some r → isCandidate r b ∧ r.bus < 255 ∧ low = r.bus) →
      ∀ r, (find_loop b devs low best).2 = some r →
        isCandidate r b ∧ r.bus < 255 ∧ (find_loop b devs low best).1 = r.bus := by
  intro devs
  induction devs with
  | nil =>
    intro low best hle hinv r hr
    simp only [find_loop] at hr ⊢
    rcases hinv r hr with ⟨h1, h2, h3⟩
    exact ⟨h1, h2, h3⟩
  | cons dev rest ih =>
    intro low best hle hinv r hr
    by_cases hc : isCandidate dev b
    · by_cases hlt : dev.bus < low
      · simp only [find_loop, if_pos hc, if_pos hlt] at hr ⊢
        refine ih dev.bus (some dev) (le_of_lt (lt_of_lt_of_le hlt hle)) ?_ r hr
        intro r' hr'
        cases hr'
        exact ⟨hc, lt_of_lt_of_le hlt hle, rfl⟩
      · simp only [find_loop, if_pos hc, if_neg hlt] at hr ⊢
        exact ih low best hle hinv r hr
    · simp only [find_loop, if_neg hc] at hr ⊢
      exact ih low best hle hinv r hr

/-- The final `lowest_bus` is a lower bound on every candidate's bus that
appears in the scanned list. -/
theorem find_loop_min (b : Nat) :
    ∀ (devs : List PciDev) (low : Nat) (best : Option PciDev) (d : PciDev),
      d ∈ devs → isCandidate d b → (find_loop b devs low best).1 ≤ d.bus := by
  intro devs
  induction devs with
  | nil => intro low best d hd; cases hd
  | cons dev rest ih =>
    intro low best d hd hcand
    rcases List.mem_cons.mp hd with heq | hmem
    · subst heq
      by_cases hlt : d.bus < low
      · simp only [find_loop, if_pos hcand, if_pos hlt]
        exact find_loop_low_le b rest d.bus (some d)
      · simp only [find_loop, if_pos hcand, if_neg hlt]
        exact le_trans (find_loop_low_le b rest low best) (le_of_not_lt hlt)
    · by_cases hc : isCandidate dev b
      · by_cases hlt : dev.bus < low
        · simp only [find_loop, if_pos hc, if_pos hlt]
          exact ih dev.bus (some dev) d hmem hcand
        · simp only [find_loop, if_pos hc, if_neg hlt]
          exact ih low best d hmem hcand
      · simp only [find_loop, if_neg hc]
        exact ih low best d hmem hcand

/-- If some candidate in the list has a bus below the current
`lowest_bus`, the loop ends with a non-NULL `best_match`. -/
theorem find_loop_complete (b : Nat) :
    ∀ (devs : List PciDev) (low : Nat) (best : Option PciDev),
      (∃ d ∈ devs, isCandidate d b ∧ d.bus < low) →
      ((find_loop b devs low best).2).isSome := by
  intro devs
  induction devs with
  | nil => intro low best h; rcases h with ⟨d, hd, _⟩; cases hd
  | cons dev rest ih =>
    intro low best h
    rcases h with ⟨d, hd, hcand, hbus⟩
    rcases List.mem_cons.mp hd with heq | hmem
    · subst heq
      simp only [find_loop, if_pos hcand, if_pos hbus]
      exact find_loop_isSome b rest d.bus d
    · by_cases hc : isCandidate dev b
      · by_cases hlt : dev.bus < low
        · simp only [find_loop, if_pos hc, if_pos hlt]
          exact find_loop_isSome b rest dev.bus dev
        · simp only [find_loop, if_pos hc, if_neg hlt]
          exact ih low best ⟨d, hmem, hcand, hbus⟩
      · simp only [find_loop, if_neg hc]
        exact ih low best ⟨d, hmem, hcand, hbus⟩

/-- If no candidate in the list has a bus below the current `lowest_bus`,
the loop changes nothing. -/
theorem find_loop_frame (b : Nat) :
    ∀ (devs : List PciDev) (low : Nat) (best : Option PciDev),
      (∀ d ∈ devs, isCandidate d b → ¬ d.bus < low) →
      find_loop b devs low best = (low, best) := by
  intro devs
  induction devs with
  | nil => intro low best _; rfl
  | cons dev rest ih =>
    intro low best h
    by_cases hc : isCandidate dev b
    · have hnlt : ¬ dev.bus < low := h dev (List.mem_cons_self dev rest) hc
      simp only [find_loop, if_pos hc, if_neg hnlt]
      exact ih low best fun d hd hcand => h d (List.mem_cons_of_mem dev hd) hcand
    · simp only [find_loop, if_neg hc]
      exact ih low best fun d hd hcand => h d (List.mem_cons_of_mem dev hd) hcand

/-- A returned `best_match` is either the initial one or a member of the
scanned list. -/
theorem find_loop_mem (b : Nat) :
    ∀ (devs : List PciDev) (low : Nat) (best : Option PciDev) (r : PciDev),
      (find_loop b devs low best).2 = some r → best = some r ∨ r ∈ devs := by
  intro devs
  induction devs with
  | nil => intro low best r hr; simp only [find_loop] at hr; exact Or.inl hr
  | cons dev rest ih =>
    intro low best r hr
    by_cases hc : isCandidate dev b
    · by_cases hlt : dev.bus < low
      · simp only [find_loop, if_pos hc, if_pos hlt] at hr
        rcases ih dev.bus (some dev) r hr with h | h
        · rcases Option.some.inj h with rfl
          exact Or.inr (List.mem_cons_self _ _)
        · exact Or.inr (List.mem_cons_of_mem dev h)
      · simp only [find_loop, if_pos hc, if_neg hlt] at hr
        rcases ih low best r hr with h | h
        · exact Or.inl h
        · exact Or.inr (List.mem_cons_of_mem dev h)
    · simp only [find_loop, if_neg hc] at hr
      rcases ih low best r hr with h | h
      · exact Or.inl h
      · exact Or.inr (List.mem_cons_of_mem dev h)

/-- `find_ddio_device` returns a device iff some candidate has bus below
0xff. -/
theorem find_some_iff (devs : List PciDev) (b : Nat) :
    ((find_ddio_device devs b).isSome) ↔
      ∃ d ∈ devs, isCandidate d b ∧ d.bus < 255 := by
  constructor
  · intro h
    by_contra hno
    have : find_loop b devs 255 none = (255, none) := by
      apply find_loop_frame
      intro d hd hcand hlt
      exact hno ⟨d, hd, hcand, hlt⟩
    unfold find_ddio_device at h
    rw [this] at h
    simp at h
  · intro h
    exact find_loop_complete b devs 255 none h

/-! ## Register editor -/

/-- `SKX_use_allocating_flow_wr_MASK` (0x80, bit 7: DDIO enable). -/
def SKX_use_allocating_flow_wr_MASK : Nat := 0x80

/-- `SKX_nosnoopopwren_MASK` (0x8, bit 3: Non-Snoop write enable). -/
def SKX_nosnoopopwren_MASK : Nat := 0x8

/-- `SKX_PERFCTRLSTS_0` (0x180): the fixed register offset. -/
def SKX_PERFCTRLSTS_0 : Nat := 0x180

/-- C bitwise complement `~m` on a `uint32_t` operand: XOR with
`0xFFFFFFFF`. -/
def not32 (m : Nat) : Nat := 0xFFFFFFFF ^^^ m

/-- The new-value computation of `ddio_configure` (lines 155-170):
start from `val_before`, set or clear bit 7 per
`use_allocating_flow_wr`, then set or clear bit 3 per `nosnoopopwren`.
The flags are `uint8_t` values tested for C truthiness (nonzero). -/
def compute_new_val (val_before use_allocating_flow_wr nosnoopopwren : Nat) : Nat :=
  let v1 :=
    if use_allocating_flow_wr ≠ 0 then
      val_before ||| SKX_use_allocating_flow_wr_MASK
    else
      val_before &&& not32 SKX_use_allocating_flow_wr_MASK
  if nosnoopopwren ≠ 0 then
    v1 ||| SKX_nosnoopopwren_MASK
  else
    v1 &&& not32 SKX_nosnoopopwren_MASK

/-- The decoded register state, as both `ddio_status` (lines 113-120) and
the reports in `ddio_configure` extract it: bit 7 (`val & 0x80`) as the
allocating-flow-write/DDIO flag and bit 3 (`val & 0x8`) as the non-snoop
write-enable flag. -/
def read_control_bits (val : Nat) : Bool × Bool :=
  (decide (val &&& SKX_use_allocating_flow_wr_MASK ≠ 0),
   decide (val &&& SKX_nosnoopopwren_MASK ≠ 0))

/-- One configuration-space access to the 32-bit register at a given
offset (`pci_read_long` / `pci_write_long`). -/
inductive RegAccess where
  | read (off : Nat) (val : Nat)
  | write (off : Nat) (val : Nat)
deriving DecidableEq, Repr

/-- The caller-visible outcome of `ddio_configure`: either the process
exited (via `exit(1)`) or the function returned — its C return type is
`void`, so the `returned` constructor carries no value. -/
inductive ConfigOutcome where
  | exited (code : Nat)
  | returned
deriving DecidableEq, Repr

/-- A run of `ddio_configure`: outcome, the trace of accesses to the
`perfctrlsts_0` register, the raw register values printed in the
before/after report, and the diagnostic messages printed. -/
structure ConfigRun where
  outcome : ConfigOutcome
  accesses : List RegAccess
  reported : List Nat
  messages : List String
deriving DecidableEq, Repr

/-- `ddio_configure` (lines 131-187) over a simulated register: resolve
the bridge; on failure print the diagnostics and `exit(1)` with no
register access; on success read `val_before` from the device's register,
compute `val_new`, write it, read back `val_after` (the simulated register
returns the value just stored) and print the before/after report.
The not-found diagnostics combine the printf in `find_ddio_device`
(line 80) with the one in `ddio_configure` (line 140). -/
def ddio_configure (devs : List PciDev) (nic_bus use_allocating_flow_wr nosnoopopwren : Nat) :
    ConfigRun :=
  match find_ddio_device devs nic_bus with
  | none =>
    ⟨ConfigOutcome.exited 1, [], [],
     ["Could not find the proper PCIe root!", "No device found!"]⟩
  | some dev =>
    let val_before := dev.reg
    let val_new := compute_new_val val_before use_allocating_flow_wr nosnoopopwren
    let val_after := val_new
    ⟨ConfigOutcome.returned,
     [RegAccess.read SKX_PERFCTRLSTS_0 val_before,
      RegAccess.write SKX_PERFCTRLSTS_0 val_new,
      RegAccess.read SKX_PERFCTRLSTS_0 val_after],
     [val_before, val_after],
     ["Configuration applied successfully!"]⟩

/-- `ddio_status` (lines 101-121): resolve the bridge, read the register,
and return 1 when the allocating-flow-write bit is set, else 0; `none`
models the `exit(1)` path when no device is found. -/
def ddio_status (devs : List PciDev) (nic_bus : Nat) : Option Nat :=
  match find_ddio_device devs nic_bus with
  | none => none
  | some dev =>
    if dev.reg &&& SKX_use_allocating_flow_wr_MASK ≠ 0 then some 1 else some 0

/-! ## Command-line front end -/

/-- The C cast `(uint8_t)x` of an `int` value: reduction modulo 2^8 into
the range 0..255 (`Int.emod` is Euclidean, so the result is nonnegative). -/
def parse_u8 (n : Int) : Nat := (n % 256).toNat

/-- The caller-visible outcome of `main` (lines 207-250). `usageError`:
`argc != 4`, usage printed, return 1. `flagError`: a flag failed the
`> 1` validation, error printed, return 1. In both of those cases no
PCI enumeration happens, so the constructors carry no device data.
`exitedNoDevice`: `print_dev_info` hit a NULL device and called
`exit(1)`. `deviceFlow`: the parsed parameters and the `ddio_configure`
run. -/
inductive MainOutcome where
  | usageError (code : Nat)
  | flagError (code : Nat)
  | exitedNoDevice (code : Nat)
  | deviceFlow (nic_bus use_allocating_flow_wr nosnoopopwren : Nat) (run : ConfigRun)
deriving DecidableEq, Repr

/-- `main` (lines 207-250) with each argv string replaced by the integer
value `strtol`/`atoi` produces for it: check `argc != 4`; cast the three
values to `uint8_t`; validate the two flags with `> 1`; then enumerate
devices, resolve the bridge (`print_dev_info` exits 1 on NULL), and run
`ddio_configure`. -/
def main_model (args : List Int) (devs : List PciDev) : MainOutcome :=
  match args with
  | [a1, a2, a3] =>
    let nic_bus := parse_u8 a1
    let use_allocating_flow_wr := parse_u8 a2
    let nosnoopopwren := parse_u8 a3
    if use_allocating_flow_wr > 1 ∨ nosnoopopwren > 1 then
      MainOutcome.flagError 1
    else
      match find_ddio_device devs nic_bus with
      | none => MainOutcome.exitedNoDevice 1
      | some _ =>
        MainOutcome.deviceFlow nic_bus use_allocating_flow_wr nosnoopopwren
          (ddio_configure devs nic_bus use_allocating_flow_wr nosnoopopwren)
  | _ => MainOutcome.usageError 1

/-! ## Bit-level helper lemmas -/

/-- Bit `i` of the DDIO mask `0x80` is set exactly at position 7. -/
theorem testBit_mask80 (i : Nat) :
    SKX_use_allocating_flow_wr_MASK.testBit i = decide (i = 7) := by
  have h : SKX_use_allocating_flow_wr_MASK = 2 ^ 7 := by decide
  rw [h, Nat.testBit_two_pow]
  simp [eq_comm]

/-- Bit `i` of the non-snoop mask `0x8` is set exactly at position 3. -/
theorem testBit_mask8 (i : Nat) :
    SKX_nosnoopopwren_MASK.testBit i = decide (i = 3) := by
  have h : SKX_nosnoopopwren_MASK = 2 ^ 3 := by decide
  rw [h, Nat.testBit_two_pow]
  simp [eq_comm]

/-- Bit `i` of the 32-bit complement `~m` flips `m`'s bit below
position 32 and is clear above. -/
theorem testBit_not32 (m i : Nat) :
    (not32 m).testBit i = ((decide (i < 32)).xor (m.testBit i)) := by
  have h : (0xFFFFFFFF : Nat) = 2 ^ 32 - 1 := by norm_num
  unfold not32
  rw [h, Nat.testBit_xor, Nat.testBit_two_pow_sub_one]

/-- Bit 7 of the value computed by the write path equals the C truth
value of `use_allocating_flow_wr`. -/
theorem compute_new_val_testBit_7 (v f1 f2 : Nat) :
    (compute_new_val v f1 f2).testBit 7 = decide (f1 ≠ 0) := by
  unfold compute_new_val
  by_cases h1 : f1 ≠ 0 <;> by_cases h2 : f2 ≠ 0 <;>
    simp [h1, h2, Nat.testBit_or, Nat.testBit_and, testBit_mask80, testBit_mask8,
          testBit_not32]

/-- Bit 3 of the value computed by the write path equals the C truth
value of `nosnoopopwren`. -/
theorem compute_new_val_testBit_3 (v f1 f2 : Nat) :
    (compute_new_val v f1 f2).testBit 3 = decide (f2 ≠ 0) := by
  unfold compute_new_val
  by_cases h1 : f1 ≠ 0 <;> by_cases h2 : f2 ≠ 0 <;>
    simp [h1, h2, Nat.testBit_or, Nat.testBit_and, testBit_mask80, testBit_mask8,
          testBit_not32]

/-- The write path preserves every bit of a 32-bit starting value outside
positions 3 and 7. -/
theorem compute_new_val_frame (v f1 f2 i : Nat) (hv : v < 2 ^ 32)
    (h3 : i ≠ 3) (h7 : i ≠ 7) :
    (compute_new_val v f1 f2).testBit i = v.testBit i := by
  unfold compute_new_val
  by_cases hi : i < 32
  · by_cases h1 : f1 ≠ 0 <;> by_cases h2 : f2 ≠ 0 <;>
      simp [h1, h2, Nat.testBit_or, Nat.testBit_and, testBit_mask80, testBit_mask8,
            testBit_not32, hi, h3, h7]
  · have hvbit : v.testBit i = false := by
      apply Nat.testBit_lt_two_pow
      calc v < 2 ^ 32 := hv
        _ ≤ 2 ^ i := Nat.pow_le_pow_right (by norm_num) (le_of_not_lt hi)
    by_cases h1 : f1 ≠ 0 <;> by_cases h2 : f2 ≠ 0 <;>
      simp [h1, h2, Nat.testBit_or, Nat.testBit_and, testBit_mask80, testBit_mask8,
            testBit_not32, hi, h3, h7, hvbit]

/-- Masking with a single-bit mask is nonzero iff that bit is set. -/
theorem and_two_pow_ne_zero_iff (x k : Nat) :
    x &&& 2 ^ k ≠ 0 ↔ x.testBit k = true := by
  constructor
  · intro h
    by_contra hb
    apply h
    apply Nat.zero_of_testBit_eq_false
    intro i
    rw [Nat.testBit_and, Nat.testBit_two_pow]
    by_cases hik : k = i
    · subst hik
      simp [Bool.eq_false_iff.mpr hb]
    · simp [hik]
  · intro h h0
    have hbit : (x &&& 2 ^ k).testBit k = true := by
      rw [Nat.testBit_and, h, Nat.testBit_two_pow]
      simp
    rw [h0] at hbit
    simp at hbit

/-! ## Claim theorems -/

/-- C1 (counterexample): a record on bus 0xff satisfying the candidate
conditions (secondary ≤ target, subordinate = target) is not returned:
the resolver yields NotFound even though a candidate exists, contrary to
the claim. -/
theorem C1_bus_ff_candidate_missed :
    isCandidate ⟨255, 23, 23, 0⟩ 23 ∧
    (⟨255, 23, 23, 0⟩ : PciDev).secondary ≤ 23 ∧
    (⟨255, 23, 23, 0⟩ : PciDev).subordinate = 23 ∧
    find_ddio_device [⟨255, 23, 23, 0⟩] 23 = none := by decide

/-- C1 (amended): for every enumeration and target bus `b`, the resolver
returns a bridge `r` with `r.secondaryBus ≤ b` and `r.subordinateBus = b`
whenever at least one record with bus number below 0xff satisfies those
conditions, and fails with NotFound exactly when no such record with bus
number below 0xff exists. -/
theorem C1_find_covering_bridge_amended (devs : List PciDev) (b : Nat) :
    ((∃ d ∈ devs, isCandidate d b ∧ d.bus < 255) →
      ∃ r, find_ddio_device devs b = some r ∧ r.secondary ≤ b ∧ r.subordinate = b) ∧
    (find_ddio_device devs b = none ↔
      ¬ ∃ d ∈ devs, isCandidate d b ∧ d.bus < 255) := by
  constructor
  · intro h
    have hs := (find_some_iff devs b).mpr h
    rcases Option.isSome_iff_exists.mp hs with ⟨r, hr⟩
    have hr' : (find_loop b devs 255 none).2 = some r := hr
    have hsound := find_loop_sound b devs 255 none (by norm_num)
      (fun r' hr'' => by cases hr'') r hr'
    exact ⟨r, hr, hsound.1.2.1, hsound.1.1⟩
  · rw [← Option.not_isSome_iff_eq_none]
    exact not_congr (find_some_iff devs b)

/-- C1 (witness): the amended theorem applied to a one-element
enumeration whose record covers target bus 23. -/
theorem C1_find_covering_bridge_witness :
    ∃ r, find_ddio_device [⟨5, 20, 23, 7⟩] 23 = some r ∧
      r.secondary ≤ 23 ∧ r.subordinate = 23 :=
  (C1_find_covering_bridge_amended [⟨5, 20, 23, 7⟩] 23).1
    ⟨⟨5, 20, 23, 7⟩, by decide, by decide, by decide⟩

/-- C2 (counterexample): with two candidate bridges both on bus 0xff
covering target bus 23, the resolver selects neither (returns NotFound),
contrary to the claim that it selects the candidate with the numerically
smallest bus number. -/
theorem C2_all_ff_candidates_missed :
    isCandidate ⟨255, 20, 23, 0⟩ 23 ∧
    isCandidate ⟨255, 21, 23, 0⟩ 23 ∧
    find_ddio_device [⟨255, 20, 23, 0⟩, ⟨255, 21, 23, 0⟩] 23 = none := by decide

/-- C2 (amended): whenever at least one candidate has bus number below
0xff, the resolver returns a candidate from the enumeration whose bus
number is minimal among all candidates; in particular, with candidates on
buses 0x10 and 0x05 both covering target bus 0x17, it selects the
bus-0x05 bridge. -/
theorem C2_lowest_bus_tie_break_amended (devs : List PciDev) (b : Nat)
    (h : ∃ d ∈ devs, isCandidate d b ∧ d.bus < 255) :
    (∃ r, find_ddio_device devs b = some r ∧ r ∈ devs ∧ isCandidate r b ∧
      ∀ d ∈ devs, isCandidate d b → r.bus ≤ d.bus) ∧
    find_ddio_device [⟨0x10, 0x11, 0x17, 0⟩, ⟨0x05, 0x06, 0x17, 0⟩] 0x17 =
      some ⟨0x05, 0x06, 0x17, 0⟩ := by
  constructor
  · have hs := (find_some_iff devs b).mpr h
    rcases Option.isSome_iff_exists.mp hs with ⟨r, hr⟩
    have hr' : (find_loop b devs 255 none).2 = some r := hr
    have hsound := find_loop_sound b devs 255 none (by norm_num)
      (fun r' hr'' => by cases hr'') r hr'
    have hmem := find_loop_mem b devs 255 none r hr'
    refine ⟨r, hr, ?_, hsound.1, ?_⟩
    · rcases hmem with h' | h'
      · exact Option.noConfusion h'
      · exact h'
    · intro d hd hcand
      have hmin := find_loop_min b devs 255 none d hd hcand
      rw [hsound.2.2] at hmin
      exact hmin
  · decide

/-- C2 (witness): the amended theorem applied to the spec's synthetic
pair of candidates on buses 0x10 and 0x05 covering target bus 0x17. -/
theorem C2_lowest_bus_tie_break_witness :
    (∃ r, find_ddio_device [⟨0x10, 0x11, 0x17, 0⟩, ⟨0x05, 0x06, 0x17, 0⟩] 0x17 = some r ∧
      r ∈ [(⟨0x10, 0x11, 0x17, 0⟩ : PciDev), ⟨0x05, 0x06, 0x17, 0⟩] ∧ isCandidate r 0x17 ∧
      ∀ d ∈ [(⟨0x10, 0x11, 0x17, 0⟩ : PciDev), ⟨0x05, 0x06, 0x17, 0⟩],
        isCandidate d 0x17 → r.bus ≤ d.bus) ∧
    find_ddio_device [⟨0x10, 0x11, 0x17, 0⟩, ⟨0x05, 0x06, 0x17, 0⟩] 0x17 =
      some ⟨0x05, 0x06, 0x17, 0⟩ :=
  C2_lowest_bus_tie_break_amended
    [⟨0x10, 0x11, 0x17, 0⟩, ⟨0x05, 0x06, 0x17, 0⟩] 0x17
    ⟨⟨0x05, 0x06, 0x17, 0⟩, by decide, by decide, by decide⟩

/-- C3: in the value computed by the write path, bit 7 equals the truth
value of `use_allocating_flow_wr` and bit 3 equals the truth value of
`nosnoopopwren`; in particular, from 0x00000000 with flags (1, 0) the new
value is 0x00000080, and from 0x00000088 with flags (0, 0) it is 0. -/
theorem C3_write_path_bits (v f1 f2 : Nat) :
    (compute_new_val v f1 f2).testBit 7 = decide (f1 ≠ 0) ∧
    (compute_new_val v f1 f2).testBit 3 = decide (f2 ≠ 0) ∧
    compute_new_val 0 1 0 = 0x80 ∧
    compute_new_val 0x88 0 0 = 0 :=
  ⟨compute_new_val_testBit_7 v f1 f2, compute_new_val_testBit_3 v f1 f2,
   by decide, by decide⟩

/-- C4: for every 32-bit starting value and every flag combination, the
write path agrees with the starting value on every bit position outside
positions 3 and 7. -/
theorem C4_write_path_frame (v f1 f2 i : Nat) (hv : v < 2 ^ 32)
    (h3 : i ≠ 3) (h7 : i ≠ 7) :
    (compute_new_val v f1 f2).testBit i = v.testBit i :=
  compute_new_val_frame v f1 f2 i hv h3 h7

/-- C4 (witness): the frame property at a concrete value, flags and bit
position. -/
theorem C4_write_path_frame_witness :
    (0x12345678 : Nat) < 2 ^ 32 ∧ (5 : Nat) ≠ 3 ∧ (5 : Nat) ≠ 7 ∧
    (compute_new_val 0x12345678 1 0).testBit 5 = (0x12345678 : Nat).testBit 5 :=
  ⟨by norm_num, by decide, by decide,
   C4_write_path_frame 0x12345678 1 0 5 (by norm_num) (by decide) (by decide)⟩

/-- C5: every bridge returned by `find_ddio_device` has bus number
strictly below 0xff; and if every candidate has bus number 0xff, the
resolver reports NotFound. -/
theorem C5_returned_bus_below_ff (devs : List PciDev) (b : Nat) :
    (∀ r, find_ddio_device devs b = some r → r.bus < 255) ∧
    ((∀ d ∈ devs, isCandidate d b → d.bus = 255) →
      find_ddio_device devs b = none) := by
  constructor
  · intro r hr
    have hr' : (find_loop b devs 255 none).2 = some r := hr
    exact (find_loop_sound b devs 255 none (by norm_num)
      (fun r' h => by cases h) r hr').2.1
  · intro h
    have hframe : find_loop b devs 255 none = (255, none) :=
      find_loop_frame b devs 255 none
        (fun d hd hcand => by have := h d hd hcand; omega)
    unfold find_ddio_device
    rw [hframe]

/-- C5 (witness): the bound applied to a resolver run that returns the
bus-3 bridge. -/
theorem C5_returned_bus_below_ff_witness :
    (⟨3, 10, 23, 0⟩ : PciDev).bus < 255 :=
  (C5_returned_bus_below_ff [⟨3, 10, 23, 0⟩] 23).1 ⟨3, 10, 23, 0⟩ (by decide)

/-- C6: when no record satisfies the candidate conditions for the target
bus, `main` exits through the NULL-device path with status 1, and
`ddio_configure` exits with status 1 after printing the failure
diagnostics, with an empty register-access trace. -/
theorem C6_not_found_no_register_access (devs : List PciDev) (a1 a2 a3 : Int)
    (h2 : parse_u8 a2 ≤ 1) (h3 : parse_u8 a3 ≤ 1)
    (hno : ¬ ∃ d ∈ devs, isCandidate d (parse_u8 a1)) :
    main_model [a1, a2, a3] devs = MainOutcome.exitedNoDevice 1 ∧
    ddio_configure devs (parse_u8 a1) (parse_u8 a2) (parse_u8 a3) =
      ⟨ConfigOutcome.exited 1, [], [],
       ["Could not find the proper PCIe root!", "No device found!"]⟩ := by
  have hfind : find_ddio_device devs (parse_u8 a1) = none := by
    rw [← Option.not_isSome_iff_eq_none]
    intro hs
    rcases (find_some_iff devs (parse_u8 a1)).mp hs with ⟨d, hd, hcand, _⟩
    exact hno ⟨d, hd, hcand⟩
  have hcond : ¬ (parse_u8 a2 > 1 ∨ parse_u8 a3 > 1) := by omega
  constructor
  · simp only [main_model]
    rw [if_neg hcond, hfind]
  · simp only [ddio_configure]
    rw [hfind]

/-- C6 (witness): the empty enumeration with valid flags exits with
status 1 and touches no register. -/
theorem C6_not_found_no_register_access_witness :
    main_model [23, 1, 0] [] = MainOutcome.exitedNoDevice 1 ∧
    ddio_configure [] (parse_u8 23) (parse_u8 1) (parse_u8 0) =
      ⟨ConfigOutcome.exited 1, [], [],
       ["Could not find the proper PCIe root!", "No device found!"]⟩ :=
  C6_not_found_no_register_access [] 23 1 0 (by decide) (by decide) (by decide)

/-- C7: applying the write path with flags (1, 0) and then reading the
control bits of the resulting register value yields
(allocatingFlowWrite = true, nonSnoopWriteEnable = false), for every
starting register value. -/
theorem C7_round_trip (v : Nat) :
    read_control_bits (compute_new_val v 1 0) = (true, false) := by
  unfold read_control_bits
  have h80 : SKX_use_allocating_flow_wr_MASK = 2 ^ 7 := by decide
  have h8 : SKX_nosnoopopwren_MASK = 2 ^ 3 := by decide
  rw [h80, h8]
  have hb7 : (compute_new_val v 1 0).testBit 7 = true := by
    rw [compute_new_val_testBit_7]; decide
  have hb3 : (compute_new_val v 1 0).testBit 3 = false := by
    rw [compute_new_val_testBit_3]; decide
  have h1 : compute_new_val v 1 0 &&& 2 ^ 7 ≠ 0 :=
    (and_two_pow_ne_zero_iff _ 7).mpr hb7
  have h2 : ¬ compute_new_val v 1 0 &&& 2 ^ 3 ≠ 0 := by
    intro hc
    have := (and_two_pow_ne_zero_iff _ 3).mp hc
    rw [hb3] at this
    exact Bool.noConfusion this
  norm_num at h1 h2
  simp [h1, h2]

/-- C8 (counterexample): the flag argument with integer value 256 is not
0 or 1, yet validation accepts it (it truncates to 0) and the program
proceeds to the device flow and performs register accesses instead of
printing an error and exiting. -/
theorem C8_flag_256_accepted :
    main_model [23, 256, 0] [⟨5, 23, 23, 0⟩] =
      MainOutcome.deviceFlow 23 0 0 (ddio_configure [⟨5, 23, 23, 0⟩] 23 0 0) ∧
    (ddio_configure [⟨5, 23, 23, 0⟩] 23 0 0).accesses ≠ [] := by decide

/-- C8 (amended): a wrong argument count, or a flag whose value truncated
to 8 bits is not 0 or 1, is rejected with exit status 1, and the outcome
is independent of the device enumeration (no enumeration or register
access). -/
theorem C8_cli_rejection_amended (args : List Int) (devs devs2 : List PciDev)
    (a1 a2 a3 : Int) :
    (args.length ≠ 3 →
      main_model args devs = MainOutcome.usageError 1 ∧
      main_model args devs = main_model args devs2) ∧
    ((parse_u8 a2 > 1 ∨ parse_u8 a3 > 1) →
      main_model [a1, a2, a3] devs = MainOutcome.flagError 1 ∧
      main_model [a1, a2, a3] devs = main_model [a1, a2, a3] devs2) := by
  constructor
  · intro h
    match args with
    | [] => exact ⟨rfl, rfl⟩
    | [x] => exact ⟨rfl, rfl⟩
    | [x, y] => exact ⟨rfl, rfl⟩
    | [x, y, z] => simp at h
    | x :: y :: z :: w :: rest => exact ⟨rfl, rfl⟩
  · intro h
    constructor
    · simp only [main_model]
      rw [if_pos h]
    · simp only [main_model]
      rw [if_pos h, if_pos h]

/-- C8 (witness): a two-argument invocation is a usage error, and a flag
of 7 is rejected, both with exit status 1. -/
theorem C8_cli_rejection_witness :
    main_model [23, 1] [] = MainOutcome.usageError 1 ∧
    main_model [23, 7, 0] [] = MainOutcome.flagError 1 :=
  ⟨((C8_cli_rejection_amended [23, 1] [] [] 23 7 0).1 (by decide)).1,
   ((C8_cli_rejection_amended [23, 1] [] [] 23 7 0).2 (by decide)).1⟩

/-- C9 (counterexample): two configuration runs over simulated registers
whose observed post-write states differ produce the same caller-visible
result (the C function returns `void`), so the observed post-write state
is not returned to the caller — it is only printed. -/
theorem C9_result_carries_no_state :
    (ddio_configure [⟨5, 23, 23, 0⟩] 23 1 0).outcome =
      (ddio_configure [⟨5, 23, 23, 0x100⟩] 23 1 0).outcome ∧
    (ddio_configure [⟨5, 23, 23, 0⟩] 23 1 0).reported ≠
      (ddio_configure [⟨5, 23, 23, 0x100⟩] 23 1 0).reported := by decide

/-- C9 (amended): after writing the new value, `ddio_configure` reads the
register again and prints the observed post-write state in its report;
its return type is `void`, so the confirmation is logged rather than
returned to the caller. -/
theorem C9_post_write_read_back_amended (devs : List PciDev) (b f1 f2 : Nat)
    (dev : PciDev) (h : find_ddio_device devs b = some dev) :
    (ddio_configure devs b f1 f2).accesses =
      [RegAccess.read SKX_PERFCTRLSTS_0 dev.reg,
       RegAccess.write SKX_PERFCTRLSTS_0 (compute_new_val dev.reg f1 f2),
       RegAccess.read SKX_PERFCTRLSTS_0 (compute_new_val dev.reg f1 f2)] ∧
    (ddio_configure devs b f1 f2).reported =
      [dev.reg, compute_new_val dev.reg f1 f2] ∧
    (ddio_configure devs b f1 f2).outcome = ConfigOutcome.returned := by
  simp only [ddio_configure]
  rw [h]
  exact ⟨rfl, rfl, rfl⟩

/-- C9 (witness): the amended theorem on a one-bridge enumeration with
register starting at 0. -/
theorem C9_post_write_read_back_witness :
    (ddio_configure [⟨5, 23, 23, 0⟩] 23 1 0).accesses =
      [RegAccess.read SKX_PERFCTRLSTS_0 (⟨5, 23, 23, 0⟩ : PciDev).reg,
       RegAccess.write SKX_PERFCTRLSTS_0
         (compute_new_val (⟨5, 23, 23, 0⟩ : PciDev).reg 1 0),
       RegAccess.read SKX_PERFCTRLSTS_0
         (compute_new_val (⟨5, 23, 23, 0⟩ : PciDev).reg 1 0)] ∧
    (ddio_configure [⟨5, 23, 23, 0⟩] 23 1 0).reported =
      [(⟨5, 23, 23, 0⟩ : PciDev).reg,
       compute_new_val (⟨5, 23, 23, 0⟩ : PciDev).reg 1 0] ∧
    (ddio_configure [⟨5, 23, 23, 0⟩] 23 1 0).outcome = ConfigOutcome.returned :=
  C9_post_write_read_back_amended [⟨5, 23, 23, 0⟩] 23 1 0 ⟨5, 23, 23, 0⟩ (by decide)

/-- The `uint8_t` truncation is idempotent: casting `x % 256` again
changes nothing. -/
theorem parse_u8_emod (a : Int) : parse_u8 (a % 256) = parse_u8 a := by
  unfold parse_u8
  rw [Int.emod_emod_of_dvd a dvd_rfl]

/-- C10: the flag arguments are truncated to 8 bits before the 0/1
validation, so any argument whose integer value is congruent to 0 or 1
modulo 256 passes validation and the program behaves as if the flag were
the truncated value. -/
theorem C10_flag_truncation (a1 a2 a3 : Int) (devs : List PciDev)
    (h2 : a2 % 256 = 0 ∨ a2 % 256 = 1) (h3 : a3 % 256 = 0 ∨ a3 % 256 = 1) :
    parse_u8 a2 ≤ 1 ∧ parse_u8 a3 ≤ 1 ∧
    main_model [a1, a2, a3] devs ≠ MainOutcome.flagError 1 ∧
    main_model [a1, a2, a3] devs = main_model [a1, a2 % 256, a3 % 256] devs := by
  have hp2 : parse_u8 a2 ≤ 1 := by
    unfold parse_u8
    rcases h2 with h | h <;> rw [h] <;> decide
  have hp3 : parse_u8 a3 ≤ 1 := by
    unfold parse_u8
    rcases h3 with h | h <;> rw [h] <;> decide
  have hcond : ¬ (parse_u8 a2 > 1 ∨ parse_u8 a3 > 1) := by omega
  refine ⟨hp2, hp3, ?_, ?_⟩
  · simp only [main_model]
    rw [if_neg hcond]
    cases hf : find_ddio_device devs (parse_u8 a1) <;> simp [hf]
  · simp only [main_model, parse_u8_emod]

/-- C10 (witness): the flag values 256 and 257 pass validation and are
treated as 0 and 1 respectively. -/
theorem C10_flag_truncation_witness :
    parse_u8 256 ≤ 1 ∧ parse_u8 257 ≤ 1 ∧
    main_model [23, 256, 257] [] ≠ MainOutcome.flagError 1 ∧
    main_model [23, 256, 257] [] = main_model [23, 256 % 256, 257 % 256] [] :=
  C10_flag_truncation 23 256 257 [] (by decide) (by decide)

end DdioBench
